import Mathlib

/-!
Verification development for the Joltkin on-chain contracts
(`backend/contracts/router.py` and `backend/contracts/superfan_pass.py`,
PyTeal v8, TEAL/AVM semantics).

The two approval programs are shallowly embedded as pure Lean functions:
  * byte strings become `List Nat` (one entry per byte),
  * AVM uint64 values become `Nat`, with explicit `< 2^64` checks exactly
    where the AVM would panic (addition overflow, subtraction underflow,
    `WideRatio` result narrowing, `Btoi` of an over-long byte string),
  * an `Assert` that fails, an out-of-range access, or an arithmetic panic
    all reject the whole group, so each entrypoint returns `Option`:
    `none` models rejection (the substrate rolls back every effect),
    `some` carries the state writes and the emitted inner payments.
-/

set_option maxRecDepth 8192

/-- AVM word bound: uint64 values live in `[0, U64)`. -/
def U64 : Nat := 2 ^ 64

/-- Byte strings (application args, addresses) as lists of byte values. -/
abbrev Bytes := List Nat

/-- Account addresses are byte strings (well-formed ones have length 32). -/
abbrev Addr := List Nat

/-- The 32-byte zero address (`Global.zero_address()`), the sentinel that an
unset close-to / rekey-to field carries on the AVM. -/
def zeroAddr : Addr := List.replicate 32 0

/-- AVM `Btoi`: big-endian decode of a byte string of length at most 8;
a longer input panics (whole-group rejection), modelled as `none`. -/
def btoi (b : Bytes) : Option Nat :=
  if b.length ≤ 8 then some (b.foldl (fun acc x => acc * 256 + x) 0) else none

/-- AVM uint64 addition: panics (rejects) on overflow past `2^64 - 1`. -/
def checkedAdd (a b : Nat) : Option Nat :=
  if a + b < U64 then some (a + b) else none

/-- AVM uint64 subtraction: panics (rejects) on underflow below zero. -/
def checkedSub (a b : Nat) : Option Nat :=
  if b ≤ a then some (a - b) else none

/-- PyTeal `WideRatio([a, b], [d])`: the product `a * b` is formed exactly in
a 128-bit intermediate (no truncation), then divided by `d` with flooring;
the quotient must narrow back into uint64, else the AVM panics. -/
def wideRatio (a b d : Nat) : Option Nat :=
  if d = 0 then none
  else if a * b / d < U64 then some (a * b / d) else none

/-- AVM transaction type tags relevant to the router's group checks. -/
inductive TxnType where
  | pay
  | axfer
  | appl
  | other
deriving DecidableEq

/-- The fields of a group transaction that the contracts can observe. -/
structure Txn where
  typeEnum : TxnType
  sender : Addr
  receiver : Addr
  amount : Nat
  closeRemainderTo : Bytes
  rekeyTo : Bytes
  xferAsset : Nat
  assetAmount : Nat
  assetReceiver : Addr
  assetCloseTo : Bytes
  fee : Nat
deriving DecidableEq

/-- Router global state, one key per entry of the source's global schema
(`p1 p2 p3 bps1 bps2 bps3 roybps asa seller`). -/
structure RouterState where
  p1 : Addr
  p2 : Addr
  p3 : Addr
  bps1 : Nat
  bps2 : Nat
  bps3 : Nat
  royBps : Nat
  asa : Nat
  seller : Addr
deriving DecidableEq

/-- Router creation (`on_create`): asserts exactly 9 application args, then
stores them in fixed order — addresses verbatim, integer fields through
`Btoi`.  No other validation is performed before the writes commit. -/
def onCreate (args : List Bytes) : Option RouterState := do
  guard (args.length = 9)
  let a0 ← args[0]?
  let a1 ← args[1]?
  let a2 ← args[2]?
  let a3 ← args[3]?
  let a4 ← args[4]?
  let a5 ← args[5]?
  let a6 ← args[6]?
  let a7 ← args[7]?
  let a8 ← args[8]?
  let b1 ← btoi a3
  let b2 ← btoi a4
  let b3 ← btoi a5
  let roy ← btoi a6
  let asa ← btoi a7
  pure ⟨a0, a1, a2, b1, b2, b3, roy, asa, a8⟩

/-- Call context for a router NoOp call: the enclosing atomic group, the
app call's own group index and fee, and the substrate globals the program
reads (`Global.current_application_address()`, `Global.min_txn_fee()`). -/
structure CallCtx where
  group : List Txn
  groupIndex : Nat
  txnFee : Nat
  appAddr : Addr
  minTxnFee : Nat

/-- One inner payment emitted by `send_payment` (receiver and µAlgo amount;
the inner fee is always 0 in the source). -/
structure Payment where
  receiver : Addr
  amount : Nat
deriving DecidableEq

/-- The `buy` entrypoint: asserts the bps-sum invariant, the 3-transaction
group shape (payment to the app at index 1, single-unit ASA transfer from
SELLER to the payer at index 2), fee provisioning, then emits the three
basis-point splits of the payment amount to P1, P2, P3. -/
def buy (s : RouterState) (c : CallCtx) : Option (List Payment) := do
  guard (s.bps1 + s.bps2 + s.bps3 ≤ 10000)
  guard (c.group.length = 3)
  guard (c.groupIndex = 0)
  guard (c.minTxnFee * 3 ≤ c.txnFee)
  let t1 ← c.group[1]?
  guard (t1.typeEnum = TxnType.pay)
  guard (t1.receiver = c.appAddr)
  let t2 ← c.group[2]?
  guard (t2.typeEnum = TxnType.axfer)
  guard (t2.xferAsset = s.asa)
  guard (t2.assetAmount = 1)
  guard (t2.sender = s.seller)
  guard (t2.assetReceiver = t1.sender)
  let a1 ← wideRatio t1.amount s.bps1 10000
  let a2 ← wideRatio t1.amount s.bps2 10000
  let a3 ← wideRatio t1.amount s.bps3 10000
  pure [⟨s.p1, a1⟩, ⟨s.p2, a2⟩, ⟨s.p3, a3⟩]

/-- The `resale` entrypoint: asserts the same group shape except that the
asset-transfer sender is unconstrained, computes the royalty by wide ratio
and the seller remainder by (panicking) uint64 subtraction, then pays the
royalty to P1 and the remainder to the asset-transfer sender. -/
def resale (s : RouterState) (c : CallCtx) : Option (List Payment) := do
  guard (c.group.length = 3)
  guard (c.groupIndex = 0)
  guard (c.minTxnFee * 2 ≤ c.txnFee)
  let t1 ← c.group[1]?
  guard (t1.typeEnum = TxnType.pay)
  guard (t1.receiver = c.appAddr)
  let t2 ← c.group[2]?
  guard (t2.typeEnum = TxnType.axfer)
  guard (t2.xferAsset = s.asa)
  guard (t2.assetAmount = 1)
  guard (t2.assetReceiver = t1.sender)
  let roy ← wideRatio t1.amount s.royBps 10000
  let sellerAmt ← checkedSub t1.amount roy
  pure [⟨s.p1, roy⟩, ⟨t2.sender, sellerAmt⟩]

/-- ASCII bytes of the selector literal of the primary-sale entrypoint. -/
def buySel : Bytes := [98, 117, 121]

/-- ASCII bytes of the selector literal of the secondary-sale entrypoint. -/
def resaleSel : Bytes := [114, 101, 115, 97, 108, 101]

/-- Router NoOp dispatcher: branches on `application_args[0]`; a missing
argument or an unmatched selector falls off the `Cond` and rejects. -/
def routerNoOp (s : RouterState) (c : CallCtx) (args : List Bytes) :
    Option (List Payment) :=
  match args[0]? with
  | some sel =>
    if sel = buySel then buy s c
    else if sel = resaleSel then resale s c
    else none
  | none => none

/-- Observable outcome of a router NoOp call: on rejection the substrate
rolls everything back, so the global state is returned unchanged and no
payment is emitted; `buy`/`resale` write no global state on success. -/
def routerCallResult (s : RouterState) (c : CallCtx) (args : List Bytes) :
    RouterState × List Payment :=
  match routerNoOp s c args with
  | none => (s, [])
  | some ps => (s, ps)

/-- The group-shape conditions the spec lists for a well-formed `buy`
group (size, call position, leg types, escrow receiver, asset id, unit
amount, seller, buyer symmetry) as a decidable predicate on the context. -/
def buyShapeOk (s : RouterState) (c : CallCtx) : Bool :=
  (c.group.length = 3) && (c.groupIndex = 0) &&
  (match c.group[1]?, c.group[2]? with
   | some t1, some t2 =>
     (t1.typeEnum = TxnType.pay) && (t1.receiver = c.appAddr) &&
     (t2.typeEnum = TxnType.axfer) && (t2.xferAsset = s.asa) &&
     (t2.assetAmount = 1) && (t2.sender = s.seller) &&
     (t2.assetReceiver = t1.sender)
   | _, _ => false)

/-- Same shape conditions for a `resale` group: identical except that the
asset-transfer sender is not matched against the stored SELLER. -/
def resaleShapeOk (s : RouterState) (c : CallCtx) : Bool :=
  (c.group.length = 3) && (c.groupIndex = 0) &&
  (match c.group[1]?, c.group[2]? with
   | some t1, some t2 =>
     (t1.typeEnum = TxnType.pay) && (t1.receiver = c.appAddr) &&
     (t2.typeEnum = TxnType.axfer) && (t2.xferAsset = s.asa) &&
     (t2.assetAmount = 1) && (t2.assetReceiver = t1.sender)
   | _, _ => false)

/-- The fields of a group transaction that the router programs actually
read: everything except close-to, rekey-to and asset-close-to.  Two
transactions agreeing on these are indistinguishable to `buy`/`resale`. -/
def Txn.core (t : Txn) :
    TxnType × Addr × Addr × Nat × Nat × Nat × Addr × Nat :=
  (t.typeEnum, t.sender, t.receiver, t.amount, t.xferAsset, t.assetAmount,
    t.assetReceiver, t.fee)

/-! ## Superfan Pass embedding (`superfan_pass.py`) -/

/-- Per-account local state of the Superfan contract: the two local keys
`pts` and `tier` (uint64 each). -/
structure SuperfanLocal where
  pts : Nat
  tier : Nat
deriving DecidableEq

/-- The contract's local-state store: `none` for an account that has not
opted in (any local-state access on such an account panics). -/
abbrev LocalMap := Addr → Option SuperfanLocal

/-- `App.localPut`: point update of one account's local record. -/
def lmUpdate (m : LocalMap) (a : Addr) (r : SuperfanLocal) : LocalMap :=
  fun x => if x = a then some r else m x

/-- Opt-in handler: zero-initializes the caller's `pts` and `tier` (and
re-zeroes them on a repeated opt-in). -/
def handleOptin (m : LocalMap) (sender : Addr) : LocalMap :=
  lmUpdate m sender ⟨0, 0⟩

/-- The AVM Accounts pseudo-array of an application call (`txna Accounts i`):
the transaction sender sits at index 0 and the supplied foreign accounts
occupy indices 1 and up, while `Txn.accounts.length()` (`txn NumAccounts`)
counts only the foreign accounts. -/
def avmAccounts (sender : Addr) (accounts : List Addr) : List Addr :=
  sender :: accounts

/-- Target selection of `add_points` as compiled: the source stores
`Txn.accounts[0]` when `Txn.accounts.length() > Int(0)` and `Txn.sender()`
otherwise.  PyTeal's `Txn.accounts[0]` compiles to `txna Accounts 0`,
which on the AVM resolves to the sender — the first *foreign* account
lives at index 1 — so both branches select the caller.  (The source's
comment claiming index 0 is the first foreign account misstates the AVM
indexing.) -/
def addTarget (sender : Addr) (accounts : List Addr) : Addr :=
  if 0 < accounts.length then (avmAccounts sender accounts).getD 0 sender
  else sender

/-- The `add_points` entrypoint: admin-only; needs at least 2 args; the
amount is `Btoi(args[1])` and must be strictly positive; the target's
`pts` is incremented by the amount (uint64 read-modify-write, panicking on
overflow or on a target that is not opted in). -/
def addPoints (admin : Addr) (m : LocalMap) (sender : Addr)
    (args : List Bytes) (accounts : List Addr) : Option LocalMap := do
  guard (sender = admin)
  guard (2 ≤ args.length)
  let amtB ← args[1]?
  let amt ← btoi amtB
  guard (0 < amt)
  let r ← m (addTarget sender accounts)
  let newPts ← checkedAdd r.pts amt
  pure (lmUpdate m (addTarget sender accounts) ⟨newPts, r.tier⟩)

/-- The `claim_tier` entrypoint: needs at least 2 args; the threshold is
`Btoi(args[1])` and must be strictly positive; the caller must hold at
least that many points; the caller's `tier` is then set to exactly the
threshold (the caller must be opted in for the local reads/writes). -/
def claimTier (m : LocalMap) (sender : Addr) (args : List Bytes) :
    Option LocalMap := do
  guard (2 ≤ args.length)
  let thB ← args[1]?
  let th ← btoi thB
  guard (0 < th)
  let r ← m sender
  guard (th ≤ r.pts)
  pure (lmUpdate m sender ⟨r.pts, th⟩)

/-- Observable local-state outcome of a Superfan call: a rejected call
(`none`) is rolled back by the substrate, leaving the store unchanged. -/
def applyCall (m : LocalMap) (r : Option LocalMap) : LocalMap :=
  match r with
  | none => m
  | some m₂ => m₂

/-- Local-state stores reachable from the empty store through any sequence
of approved opt-in, `add_points` and `claim_tier` calls. -/
inductive SFReach (admin : Addr) : LocalMap → Prop where
  | init : SFReach admin (fun _ => none)
  | optin (m : LocalMap) (sender : Addr) : SFReach admin m →
      SFReach admin (handleOptin m sender)
  | add (m m₂ : LocalMap) (sender : Addr) (args : List Bytes)
      (accounts : List Addr) : SFReach admin m →
      addPoints admin m sender args accounts = some m₂ → SFReach admin m₂
  | claim (m m₂ : LocalMap) (sender : Addr) (args : List Bytes) :
      SFReach admin m → claimTier m sender args = some m₂ → SFReach admin m₂

/-! ## Helper lemmas -/

theorem wideRatio_eq_some {a b d q : Nat} (h : wideRatio a b d = some q) :
    q = a * b / d ∧ a * b / d < U64 := by
  unfold wideRatio at h
  split at h
  · exact Option.noConfusion h
  · split at h
    · next hlt => injection h with h2; exact ⟨h2.symm, hlt⟩
    · exact Option.noConfusion h

theorem wideRatio_of_lt {a b d : Nat} (hd : d ≠ 0) (hlt : a * b / d < U64) :
    wideRatio a b d = some (a * b / d) := by
  unfold wideRatio
  rw [if_neg hd, if_pos hlt]

theorem checkedSub_eq_some {a b q : Nat} (h : checkedSub a b = some q) :
    b ≤ a ∧ q = a - b := by
  unfold checkedSub at h
  split at h
  · next hle => injection h with h2; exact ⟨hle, h2.symm⟩
  · exact Option.noConfusion h

theorem checkedSub_of_le {a b : Nat} (hle : b ≤ a) :
    checkedSub a b = some (a - b) := by
  unfold checkedSub
  rw [if_pos hle]

theorem checkedAdd_eq_some {a b q : Nat} (h : checkedAdd a b = some q) :
    a + b < U64 ∧ q = a + b := by
  unfold checkedAdd at h
  split at h
  · next hlt => injection h with h2; exact ⟨hlt, h2.symm⟩
  · exact Option.noConfusion h

/-- Characterization of an approved `buy`: it approves exactly when every
assert holds and the three split quotients narrow back into uint64, and
the emitted payments are then the three basis-point splits to P1, P2, P3. -/
theorem buy_some_iff {s : RouterState} {c : CallCtx} {ps : List Payment} :
    buy s c = some ps ↔
    ∃ t1 t2, c.group[1]? = some t1 ∧ c.group[2]? = some t2 ∧
      s.bps1 + s.bps2 + s.bps3 ≤ 10000 ∧
      c.group.length = 3 ∧ c.groupIndex = 0 ∧
      c.minTxnFee * 3 ≤ c.txnFee ∧
      t1.typeEnum = TxnType.pay ∧ t1.receiver = c.appAddr ∧
      t2.typeEnum = TxnType.axfer ∧ t2.xferAsset = s.asa ∧
      t2.assetAmount = 1 ∧ t2.sender = s.seller ∧
      t2.assetReceiver = t1.sender ∧
      t1.amount * s.bps1 / 10000 < U64 ∧
      t1.amount * s.bps2 / 10000 < U64 ∧
      t1.amount * s.bps3 / 10000 < U64 ∧
      ps = [⟨s.p1, t1.amount * s.bps1 / 10000⟩,
            ⟨s.p2, t1.amount * s.bps2 / 10000⟩,
            ⟨s.p3, t1.amount * s.bps3 / 10000⟩] := by
  constructor
  · intro h
    simp only [buy, bind, Option.bind_eq_some, Option.guard_eq_some',
      Option.pure_def, Option.some.injEq] at h
    obtain ⟨u1, hbps, u2, hlen, u3, hgi, u4, hfee, t1, ht1, u5, hty1, u6,
      hrecv, t2, ht2, u7, hty2, u8, hasa, u9, hamt1, u10, hsend, u11, harecv,
      a1, e1, a2, e2, a3, e3, hps⟩ := h
    obtain ⟨qa1, wa1⟩ := wideRatio_eq_some e1
    obtain ⟨qa2, wa2⟩ := wideRatio_eq_some e2
    obtain ⟨qa3, wa3⟩ := wideRatio_eq_some e3
    subst qa1 qa2 qa3
    exact ⟨t1, t2, ht1, ht2, hbps, hlen, hgi, hfee, hty1, hrecv, hty2, hasa,
      hamt1, hsend, harecv, wa1, wa2, wa3, hps.symm⟩
  · rintro ⟨t1, t2, ht1, ht2, hbps, hlen, hgi, hfee, hty1, hrecv, hty2, hasa,
      hamt1, hsend, harecv, w1, w2, w3, hps⟩
    simp only [buy, bind, Option.bind_eq_some, Option.guard_eq_some',
      Option.pure_def, Option.some.injEq]
    exact ⟨(), hbps, (), hlen, (), hgi, (), hfee, t1, ht1, (), hty1, (), hrecv,
      t2, ht2, (), hty2, (), hasa, (), hamt1, (), hsend, (), harecv,
      _, wideRatio_of_lt (by decide) w1, _, wideRatio_of_lt (by decide) w2,
      _, wideRatio_of_lt (by decide) w3, hps.symm⟩

/-- Characterization of an approved `resale`: it approves exactly when
every assert holds, the royalty quotient fits uint64 and does not exceed
the principal, and it then emits the royalty payment to P1 followed by the
remainder payment to the asset-transfer sender. -/
theorem resale_some_iff {s : RouterState} {c : CallCtx} {ps : List Payment} :
    resale s c = some ps ↔
    ∃ t1 t2, c.group[1]? = some t1 ∧ c.group[2]? = some t2 ∧
      c.group.length = 3 ∧ c.groupIndex = 0 ∧
      c.minTxnFee * 2 ≤ c.txnFee ∧
      t1.typeEnum = TxnType.pay ∧ t1.receiver = c.appAddr ∧
      t2.typeEnum = TxnType.axfer ∧ t2.xferAsset = s.asa ∧
      t2.assetAmount = 1 ∧ t2.assetReceiver = t1.sender ∧
      t1.amount * s.royBps / 10000 < U64 ∧
      t1.amount * s.royBps / 10000 ≤ t1.amount ∧
      ps = [⟨s.p1, t1.amount * s.royBps / 10000⟩,
            ⟨t2.sender, t1.amount - t1.amount * s.royBps / 10000⟩] := by
  constructor
  · intro h
    simp only [resale, bind, Option.bind_eq_some, Option.guard_eq_some',
      Option.pure_def, Option.some.injEq] at h
    obtain ⟨u1, hlen, u2, hgi, u3, hfee, t1, ht1, u4, hty1, u5, hrecv,
      t2, ht2, u6, hty2, u7, hasa, u8, hamt1, u9, harecv,
      roy, eroy, sellerAmt, esub, hps⟩ := h
    obtain ⟨qr, wr⟩ := wideRatio_eq_some eroy
    obtain ⟨hle, qs⟩ := checkedSub_eq_some esub
    subst qr qs
    exact ⟨t1, t2, ht1, ht2, hlen, hgi, hfee, hty1, hrecv, hty2, hasa,
      hamt1, harecv, wr, hle, hps.symm⟩
  · rintro ⟨t1, t2, ht1, ht2, hlen, hgi, hfee, hty1, hrecv, hty2, hasa,
      hamt1, harecv, wr, hle, hps⟩
    simp only [resale, bind, Option.bind_eq_some, Option.guard_eq_some',
      Option.pure_def, Option.some.injEq]
    exact ⟨(), hlen, (), hgi, (), hfee, t1, ht1, (), hty1, (), hrecv,
      t2, ht2, (), hty2, (), hasa, (), hamt1, (), harecv,
      _, wideRatio_of_lt (by decide) wr, _, checkedSub_of_le hle, hps.symm⟩

/-- Characterization of an approved `add_points` call: it approves exactly
when the caller is the admin, an amount argument decodes to a positive
uint64, the target account is opted in and its point counter does not
overflow; the target's `pts` is then incremented by exactly the amount. -/
theorem addPoints_some_iff {admin : Addr} {m : LocalMap} {sender : Addr}
    {args : List Bytes} {accounts : List Addr} {m₂ : LocalMap} :
    addPoints admin m sender args accounts = some m₂ ↔
    ∃ amtB amt r, args[1]? = some amtB ∧ btoi amtB = some amt ∧
      sender = admin ∧ 2 ≤ args.length ∧ 0 < amt ∧
      m (addTarget sender accounts) = some r ∧
      r.pts + amt < U64 ∧
      m₂ = lmUpdate m (addTarget sender accounts) ⟨r.pts + amt, r.tier⟩ := by
  constructor
  · intro h
    simp only [addPoints, bind, Option.bind_eq_some, Option.guard_eq_some',
      Option.pure_def, Option.some.injEq] at h
    obtain ⟨u1, hadm, u2, hlen, amtB, hargs, amt, hamt, u3, hpos,
      r, hr, newPts, hadd, hm⟩ := h
    obtain ⟨hov, hq⟩ := checkedAdd_eq_some hadd
    subst hq
    exact ⟨amtB, amt, r, hargs, hamt, hadm, hlen, hpos, hr, hov, hm.symm⟩
  · rintro ⟨amtB, amt, r, hargs, hamt, hadm, hlen, hpos, hr, hov, hm⟩
    simp only [addPoints, bind, Option.bind_eq_some, Option.guard_eq_some',
      Option.pure_def, Option.some.injEq]
    refine ⟨(), hadm, (), hlen, amtB, hargs, amt, hamt, (), hpos,
      r, hr, r.pts + amt, ?_, hm.symm⟩
    unfold checkedAdd
    rw [if_pos hov]

/-- Characterization of an approved `claim_tier` call: it approves exactly
when a threshold argument decodes to a positive uint64 not exceeding the
opted-in caller's points; the caller's `tier` is then set to exactly the
threshold and the caller's `pts` is left unchanged. -/
theorem claimTier_some_iff {m : LocalMap} {sender : Addr}
    {args : List Bytes} {m₂ : LocalMap} :
    claimTier m sender args = some m₂ ↔
    ∃ thB th r, args[1]? = some thB ∧ btoi thB = some th ∧
      2 ≤ args.length ∧ 0 < th ∧ m sender = some r ∧ th ≤ r.pts ∧
      m₂ = lmUpdate m sender ⟨r.pts, th⟩ := by
  constructor
  · intro h
    simp only [claimTier, bind, Option.bind_eq_some, Option.guard_eq_some',
      Option.pure_def, Option.some.injEq] at h
    obtain ⟨u1, hlen, thB, hargs, th, hth, u2, hpos, r, hr, u3, hle, hm⟩ := h
    exact ⟨thB, th, r, hargs, hth, hlen, hpos, hr, hle, hm.symm⟩
  · rintro ⟨thB, th, r, hargs, hth, hlen, hpos, hr, hle, hm⟩
    simp only [claimTier, bind, Option.bind_eq_some, Option.guard_eq_some',
      Option.pure_def, Option.some.injEq]
    exact ⟨(), hlen, thB, hargs, th, hth, (), hpos, r, hr, (), hle, hm.symm⟩

/-! ## Concrete fixtures -/

/-- Example router configuration: splits 7000/2500/500 bps, royalty 500
bps, asset id 7, payout addresses `[1] [2] [3]`, seller `[9]` (the
concrete scenarios of the spec's testable properties). -/
def exampleState : RouterState :=
  ⟨[1], [2], [3], 7000, 2500, 500, 500, 7, [9]⟩

/-- Example payment leg: buyer `[11]` pays `amt` µAlgos to the app address
`[10]`, with default (zero-address) close-to and rekey-to. -/
def examplePay (amt : Nat) : Txn :=
  ⟨TxnType.pay, [11], [10], amt, zeroAddr, zeroAddr, 0, 0, [], zeroAddr, 1000⟩

/-- Example asset leg: seller `[9]` sends 1 unit of asset 7 to buyer
`[11]`, with default (zero-address) close-to and rekey-to. -/
def exampleXfer : Txn :=
  ⟨TxnType.axfer, [9], [], 0, zeroAddr, zeroAddr, 7, 1, [11], zeroAddr, 1000⟩

/-- Example application-call leg (position 0 of the group). -/
def exampleAppl : Txn :=
  ⟨TxnType.appl, [11], [], 0, zeroAddr, zeroAddr, 0, 0, [], zeroAddr, 4000⟩

/-- Example well-formed 3-transaction group context with principal `amt`. -/
def exampleCtx (amt : Nat) : CallCtx :=
  ⟨[exampleAppl, examplePay amt, exampleXfer], 0, 4000, [10], 1000⟩

example : buy exampleState (exampleCtx 1000000) =
    some [⟨[1], 700000⟩, ⟨[2], 250000⟩, ⟨[3], 50000⟩] := by decide

example : buy exampleState (exampleCtx 1000001) =
    some [⟨[1], 700000⟩, ⟨[2], 250000⟩, ⟨[3], 50000⟩] := by decide

example : resale exampleState (exampleCtx 1200000) =
    some [⟨[1], 60000⟩, ⟨[9], 1140000⟩] := by decide

/-! ## Claim theorems -/

/-- C1: for every approved `buy` call with principal taken from the
group's payment leg, the three emitted sub-payment amounts to P1, P2, P3
are `floor(principal * BPSi / 10000)`, computed from an intermediate
product that stays below `2^128` (so it cannot overflow the wide
intermediate), and their sum is at most the principal, with
`10000 * shortfall-identity`: the sum of the three per-leg flooring
remainders accounts exactly for what the splits miss of
`principal * (BPS1+BPS2+BPS3)`. -/
theorem buy_split_correct {s : RouterState} {c : CallCtx} {ps : List Payment}
    {t1 : Txn} (h : buy s c = some ps) (ht1 : c.group[1]? = some t1) :
    ps = [⟨s.p1, t1.amount * s.bps1 / 10000⟩,
          ⟨s.p2, t1.amount * s.bps2 / 10000⟩,
          ⟨s.p3, t1.amount * s.bps3 / 10000⟩] ∧
    t1.amount * s.bps1 / 10000 + t1.amount * s.bps2 / 10000 +
        t1.amount * s.bps3 / 10000 ≤ t1.amount ∧
    10000 * (t1.amount * s.bps1 / 10000 + t1.amount * s.bps2 / 10000 +
        t1.amount * s.bps3 / 10000) +
      (t1.amount * s.bps1 % 10000 + t1.amount * s.bps2 % 10000 +
        t1.amount * s.bps3 % 10000) =
      t1.amount * (s.bps1 + s.bps2 + s.bps3) ∧
    (t1.amount < U64 → s.bps1 < U64 → s.bps2 < U64 → s.bps3 < U64 →
      t1.amount * s.bps1 < U64 * U64 ∧ t1.amount * s.bps2 < U64 * U64 ∧
      t1.amount * s.bps3 < U64 * U64) := by
  obtain ⟨t1', t2, ht1', ht2, hbps, hlen, hgi, hfee, hty1, hrecv, hty2, hasa,
    hamt1, hsend, harecv, w1, w2, w3, hps⟩ := buy_some_iff.mp h
  rw [ht1] at ht1'
  injection ht1' with e
  subst e
  have hdist : t1.amount * (s.bps1 + s.bps2 + s.bps3) =
      t1.amount * s.bps1 + t1.amount * s.bps2 + t1.amount * s.bps3 := by ring
  have hub : t1.amount * (s.bps1 + s.bps2 + s.bps3) ≤ t1.amount * 10000 :=
    Nat.mul_le_mul_left _ hbps
  refine ⟨hps, by omega, by omega, ?_⟩
  intro ha hb1 hb2 hb3
  exact ⟨mul_lt_mul'' ha hb1 (Nat.zero_le _) (Nat.zero_le _),
    mul_lt_mul'' ha hb2 (Nat.zero_le _) (Nat.zero_le _),
    mul_lt_mul'' ha hb3 (Nat.zero_le _) (Nat.zero_le _)⟩

/-- C1 witness: the spec's concrete scenario B — principal 1000001 with
splits 7000/2500/500 bps gives payouts 700000/250000/50000 whose sum is
at most the principal (dust 1 stays with the app account). -/
theorem buy_split_correct_witness :
    ([⟨[1], 700000⟩, ⟨[2], 250000⟩, ⟨[3], 50000⟩] : List Payment) =
      [⟨[1], 1000001 * 7000 / 10000⟩, ⟨[2], 1000001 * 2500 / 10000⟩,
        ⟨[3], 1000001 * 500 / 10000⟩] ∧
    1000001 * 7000 / 10000 + 1000001 * 2500 / 10000 +
        1000001 * 500 / 10000 ≤ 1000001 := by
  have h : buy exampleState (exampleCtx 1000001) =
      some [⟨[1], 700000⟩, ⟨[2], 250000⟩, ⟨[3], 50000⟩] := by decide
  have ht1 : (exampleCtx 1000001).group[1]? = some (examplePay 1000001) := by
    decide
  have hc := buy_split_correct h ht1
  exact ⟨hc.1, hc.2.1⟩

/-- C2: every approved `resale` call emits exactly two sub-payments — the
royalty `floor(principal * ROY_BPS / 10000)` to P1 and the remainder
`principal - royalty` to the sender of the group's asset-transfer leg —
and royalty + remainder equals the principal exactly. -/
theorem resale_exact_split {s : RouterState} {c : CallCtx} {ps : List Payment}
    {t1 t2 : Txn} (h : resale s c = some ps) (ht1 : c.group[1]? = some t1)
    (ht2 : c.group[2]? = some t2) :
    ps = [⟨s.p1, t1.amount * s.royBps / 10000⟩,
          ⟨t2.sender, t1.amount - t1.amount * s.royBps / 10000⟩] ∧
    t1.amount * s.royBps / 10000 +
        (t1.amount - t1.amount * s.royBps / 10000) = t1.amount := by
  obtain ⟨t1', t2', ht1', ht2', hlen, hgi, hfee, hty1, hrecv, hty2, hasa,
    hamt1, harecv, wr, hle, hps⟩ := resale_some_iff.mp h
  rw [ht1] at ht1'
  injection ht1' with e1
  subst e1
  rw [ht2] at ht2'
  injection ht2' with e2
  subst e2
  exact ⟨hps, by omega⟩

/-- C2 witness: the spec's concrete scenario C — resale principal 1200000
at 500 bps royalty gives royalty 60000 to P1 and remainder 1140000 to the
asset sender, summing exactly to the principal. -/
theorem resale_exact_split_witness :
    ([⟨[1], 60000⟩, ⟨[9], 1140000⟩] : List Payment) =
      [⟨[1], 1200000 * 500 / 10000⟩, ⟨[9], 1200000 - 1200000 * 500 / 10000⟩] ∧
    1200000 * 500 / 10000 + (1200000 - 1200000 * 500 / 10000) = 1200000 := by
  have h : resale exampleState (exampleCtx 1200000) =
      some [⟨[1], 60000⟩, ⟨[9], 1140000⟩] := by decide
  have ht1 : (exampleCtx 1200000).group[1]? = some (examplePay 1200000) := by
    decide
  have ht2 : (exampleCtx 1200000).group[2]? = some exampleXfer := by decide
  exact resale_exact_split h ht1 ht2

/-- C3 counterexample: a creation call whose address arguments are 1 byte
long (not 32) and whose basis points sum to 27000 > 10000 is nevertheless
approved, with all nine values committed to global state — creation
validates only the argument count, not address lengths or the bps sum. -/
theorem onCreate_missing_validation :
    onCreate [[1], [2], [3], [35, 40], [35, 40], [35, 40], [0], [1], [4]] =
      some ⟨[1], [2], [3], 9000, 9000, 9000, 0, 1, [4]⟩ ∧
    10000 < 9000 + 9000 + 9000 ∧
    ([1] : Bytes).length ≠ 32 := by
  exact ⟨by decide, by decide, by decide⟩

/-- C3 amended: the creation call reads exactly 9 positional arguments in
the fixed order P1, P2, P3, BPS1, BPS2, BPS3, ROY_BPS, ASA, SELLER and
rejects with no state written when the count differs from 9; it performs
no address-length and no bps-sum validation — given 9 arguments it commits
them verbatim (integers through `Btoi`) whatever their values. -/
theorem onCreate_spec (args : List Bytes) :
    (args.length ≠ 9 → onCreate args = none) ∧
    (∀ a0 a1 a2 a3 a4 a5 a6 a7 a8,
      args = [a0, a1, a2, a3, a4, a5, a6, a7, a8] →
      onCreate args = do
        let b1 ← btoi a3
        let b2 ← btoi a4
        let b3 ← btoi a5
        let roy ← btoi a6
        let asa ← btoi a7
        pure ⟨a0, a1, a2, b1, b2, b3, roy, asa, a8⟩) := by
  constructor
  · intro hne
    unfold onCreate
    simp only [guard, if_neg hne]
    rfl
  · intro a0 a1 a2 a3 a4 a5 a6 a7 a8 hargs
    subst hargs
    rfl

/-- C3 amended witness: a 5-argument creation call is rejected, and a
9-argument creation call with integer arguments 4..8 commits exactly those
values in order. -/
theorem onCreate_spec_witness :
    onCreate [[1], [2], [3], [4], [5]] = none ∧
    onCreate [[1], [2], [3], [4], [5], [6], [7], [8], [9]] =
      some ⟨[1], [2], [3], 4, 5, 6, 7, 8, [9]⟩ := by
  constructor
  · exact (onCreate_spec [[1], [2], [3], [4], [5]]).1 (by decide)
  · have h := (onCreate_spec [[1], [2], [3], [4], [5], [6], [7], [8], [9]]).2
      [1] [2] [3] [4] [5] [6] [7] [8] [9] rfl
    exact h.trans (by decide)

/-- C4: a `buy` or `resale` call whose enclosing group violates any of the
spec's shape conditions (size 3, call at index 0, payment leg to the app
address, single-unit transfer of the stored ASA to the payer, and for
`buy` the stored SELLER as asset sender) rejects: no sub-payment is
emitted and the global state is returned unchanged. -/
theorem malformed_group_rejects {s : RouterState} {c : CallCtx} :
    (buyShapeOk s c = false → routerCallResult s c [buySel] = (s, [])) ∧
    (resaleShapeOk s c = false → routerCallResult s c [resaleSel] = (s, [])) := by
  constructor
  · intro hfalse
    have key : buy s c = none := by
      cases e : buy s c with
      | none => rfl
      | some ps =>
        exfalso
        obtain ⟨t1, t2, ht1, ht2, hbps, hlen, hgi, hfee, hty1, hrecv, hty2,
          hasa, hamt1, hsend, harecv, w1, w2, w3, hps⟩ := buy_some_iff.mp e
        have htrue : buyShapeOk s c = true := by
          simp only [buyShapeOk, ht1, ht2]
          simp [hlen, hgi, hty1, hrecv, hty2, hasa, hamt1, hsend, harecv]
        rw [htrue] at hfalse
        exact Bool.noConfusion hfalse
    simp [routerCallResult, routerNoOp, key]
  · intro hfalse
    have key : resale s c = none := by
      cases e : resale s c with
      | none => rfl
      | some ps =>
        exfalso
        obtain ⟨t1, t2, ht1, ht2, hlen, hgi, hfee, hty1, hrecv, hty2, hasa,
          hamt1, harecv, wr, hle, hps⟩ := resale_some_iff.mp e
        have htrue : resaleShapeOk s c = true := by
          simp only [resaleShapeOk, ht1, ht2]
          simp [hlen, hgi, hty1, hrecv, hty2, hasa, hamt1, harecv]
        rw [htrue] at hfalse
        exact Bool.noConfusion hfalse
    simp [routerCallResult, routerNoOp, key, buySel, resaleSel]

/-- C4 witness: with an empty group, both selectors are rejected and the
call leaves the state unchanged with no payment emitted. -/
theorem malformed_group_rejects_witness :
    buyShapeOk exampleState ⟨[], 0, 4000, [10], 1000⟩ = false ∧
    routerCallResult exampleState ⟨[], 0, 4000, [10], 1000⟩ [buySel] =
      (exampleState, []) ∧
    resaleShapeOk exampleState ⟨[], 0, 4000, [10], 1000⟩ = false ∧
    routerCallResult exampleState ⟨[], 0, 4000, [10], 1000⟩ [resaleSel] =
      (exampleState, []) := by
  refine ⟨by decide, malformed_group_rejects.1 (by decide), by decide,
    malformed_group_rejects.2 (by decide)⟩

/-- Payment leg carrying non-empty close-to (`[13]`) and rekey-to (`[14]`)
fields, otherwise identical to a well-formed buy payment. -/
def closeRekeyPay : Txn :=
  ⟨TxnType.pay, [11], [10], 1000000, [13], [14], 0, 0, [], zeroAddr, 1000⟩

/-- Asset leg carrying non-empty asset-close-to (`[15]`) and rekey-to
(`[16]`) fields, otherwise identical to a well-formed buy transfer. -/
def closeRekeyXfer : Txn :=
  ⟨TxnType.axfer, [9], [], 0, zeroAddr, [16], 7, 1, [11], [15], 1000⟩

/-- Group context whose payment and asset legs carry non-empty close-to
and rekey-to fields. -/
def closeRekeyCtx : CallCtx :=
  ⟨[exampleAppl, closeRekeyPay, closeRekeyXfer], 0, 4000, [10], 1000⟩

/-- C5 counterexample: a `buy` group whose payment leg has non-empty
close-to and rekey-to and whose asset leg has non-empty asset-close-to and
rekey-to is approved and pays out normally — the contract never asserts
these fields equal the zero-address sentinel. -/
theorem close_rekey_not_asserted :
    buy exampleState closeRekeyCtx =
      some [⟨[1], 700000⟩, ⟨[2], 250000⟩, ⟨[3], 50000⟩] ∧
    closeRekeyPay.closeRemainderTo ≠ zeroAddr ∧
    closeRekeyPay.rekeyTo ≠ zeroAddr ∧
    closeRekeyXfer.assetCloseTo ≠ zeroAddr ∧
    closeRekeyXfer.rekeyTo ≠ zeroAddr := by decide

/-- C5 amended: `buy` and `resale` never inspect the close-to, rekey-to or
asset-close-to fields of any group transaction (nor any field of the leg
at index 0): replacing the legs by transactions with identical observed
cores — in particular, arbitrarily changing close-to/rekey-to — leaves
the outcome of both entrypoints unchanged, so a group with non-empty
close-to or rekey-to on either leg is not rejected for that reason. -/
theorem close_rekey_ignored (s : RouterState) (g0 g0' t1 t1' t2 t2' : Txn)
    (gi fee : Nat) (app : Addr) (minFee : Nat)
    (h1 : t1'.core = t1.core) (h2 : t2'.core = t2.core) :
    buy s ⟨[g0', t1', t2'], gi, fee, app, minFee⟩ =
      buy s ⟨[g0, t1, t2], gi, fee, app, minFee⟩ ∧
    resale s ⟨[g0', t1', t2'], gi, fee, app, minFee⟩ =
      resale s ⟨[g0, t1, t2], gi, fee, app, minFee⟩ := by
  obtain ⟨e1ty, e1send, e1recv, e1amt, e1x, e1aa, e1ar, e1fee⟩ :
      t1'.typeEnum = t1.typeEnum ∧ t1'.sender = t1.sender ∧
      t1'.receiver = t1.receiver ∧ t1'.amount = t1.amount ∧
      t1'.xferAsset = t1.xferAsset ∧ t1'.assetAmount = t1.assetAmount ∧
      t1'.assetReceiver = t1.assetReceiver ∧ t1'.fee = t1.fee := by
    simpa [Txn.core, Prod.ext_iff] using h1
  obtain ⟨e2ty, e2send, e2recv, e2amt, e2x, e2aa, e2ar, e2fee⟩ :
      t2'.typeEnum = t2.typeEnum ∧ t2'.sender = t2.sender ∧
      t2'.receiver = t2.receiver ∧ t2'.amount = t2.amount ∧
      t2'.xferAsset = t2.xferAsset ∧ t2'.assetAmount = t2.assetAmount ∧
      t2'.assetReceiver = t2.assetReceiver ∧ t2'.fee = t2.fee := by
    simpa [Txn.core, Prod.ext_iff] using h2
  constructor
  · apply Option.ext
    intro ps
    simp only [Option.mem_def]
    constructor
    · intro h
      obtain ⟨tA, tB, htA, htB, hbps, hlen, hgi, hfee, hty1, hrecv, hty2,
        hasa, hamt1, hsend, harecv, w1, w2, w3, hps⟩ := buy_some_iff.mp h
      have eA : tA = t1' := by
        have : some t1' = some tA := htA
        injection this with e
        exact e.symm
      have eB : tB = t2' := by
        have : some t2' = some tB := htB
        injection this with e
        exact e.symm
      subst eA eB
      refine buy_some_iff.mpr ⟨t1, t2, rfl, rfl, hbps, by simp, hgi, hfee,
        ?_, ?_, ?_, ?_, ?_, ?_, ?_, ?_, ?_, ?_, ?_⟩
      · rw [← e1ty]; exact hty1
      · rw [← e1recv]; exact hrecv
      · rw [← e2ty]; exact hty2
      · rw [← e2x]; exact hasa
      · rw [← e2aa]; exact hamt1
      · rw [← e2send]; exact hsend
      · rw [← e2ar, ← e1send]; exact harecv
      · rw [← e1amt]; exact w1
      · rw [← e1amt]; exact w2
      · rw [← e1amt]; exact w3
      · rw [← e1amt]; exact hps
    · intro h
      obtain ⟨tA, tB, htA, htB, hbps, hlen, hgi, hfee, hty1, hrecv, hty2,
        hasa, hamt1, hsend, harecv, w1, w2, w3, hps⟩ := buy_some_iff.mp h
      have eA : tA = t1 := by
        have : some t1 = some tA := htA
        injection this with e
        exact e.symm
      have eB : tB = t2 := by
        have : some t2 = some tB := htB
        injection this with e
        exact e.symm
      subst eA eB
      refine buy_some_iff.mpr ⟨t1', t2', rfl, rfl, hbps, by simp, hgi, hfee,
        ?_, ?_, ?_, ?_, ?_, ?_, ?_, ?_, ?_, ?_, ?_⟩
      · rw [e1ty]; exact hty1
      · rw [e1recv]; exact hrecv
      · rw [e2ty]; exact hty2
      · rw [e2x]; exact hasa
      · rw [e2aa]; exact hamt1
      · rw [e2send]; exact hsend
      · rw [e2ar, e1send]; exact harecv
      · rw [e1amt]; exact w1
      · rw [e1amt]; exact w2
      · rw [e1amt]; exact w3
      · rw [e1amt]; exact hps
  · apply Option.ext
    intro ps
    simp only [Option.mem_def]
    constructor
    · intro h
      obtain ⟨tA, tB, htA, htB, hlen, hgi, hfee, hty1, hrecv, hty2, hasa,
        hamt1, harecv, wr, hle, hps⟩ := resale_some_iff.mp h
      have eA : tA = t1' := by
        have : some t1' = some tA := htA
        injection this with e
        exact e.symm
      have eB : tB = t2' := by
        have : some t2' = some tB := htB
        injection this with e
        exact e.symm
      subst eA eB
      refine resale_some_iff.mpr ⟨t1, t2, rfl, rfl, by simp, hgi, hfee,
        ?_, ?_, ?_, ?_, ?_, ?_, ?_, ?_, ?_⟩
      · rw [← e1ty]; exact hty1
      · rw [← e1recv]; exact hrecv
      · rw [← e2ty]; exact hty2
      · rw [← e2x]; exact hasa
      · rw [← e2aa]; exact hamt1
      · rw [← e2ar, ← e1send]; exact harecv
      · rw [← e1amt]; exact wr
      · rw [← e1amt]; exact hle
      · rw [← e1amt, ← e2send]; exact hps
    · intro h
      obtain ⟨tA, tB, htA, htB, hlen, hgi, hfee, hty1, hrecv, hty2, hasa,
        hamt1, harecv, wr, hle, hps⟩ := resale_some_iff.mp h
      have eA : tA = t1 := by
        have : some t1 = some tA := htA
        injection this with e
        exact e.symm
      have eB : tB = t2 := by
        have : some t2 = some tB := htB
        injection this with e
        exact e.symm
      subst eA eB
      refine resale_some_iff.mpr ⟨t1', t2', rfl, rfl, by simp, hgi, hfee,
        ?_, ?_, ?_, ?_, ?_, ?_, ?_, ?_, ?_⟩
      · rw [e1ty]; exact hty1
      · rw [e1recv]; exact hrecv
      · rw [e2ty]; exact hty2
      · rw [e2x]; exact hasa
      · rw [e2aa]; exact hamt1
      · rw [e2ar, e1send]; exact harecv
      · rw [e1amt]; exact wr
      · rw [e1amt]; exact hle
      · rw [e1amt, e2send]; exact hps

/-- C5 amended witness: scrubbing the non-empty close-to/rekey-to fields
of the counterexample group back to the zero address leaves the `buy` and
`resale` outcomes unchanged. -/
theorem close_rekey_ignored_witness :
    buy exampleState closeRekeyCtx =
      buy exampleState (exampleCtx 1000000) ∧
    resale exampleState closeRekeyCtx =
      resale exampleState (exampleCtx 1000000) := by
  exact close_rekey_ignored exampleState exampleAppl exampleAppl
    (examplePay 1000000) closeRekeyPay exampleXfer closeRekeyXfer
    0 4000 [10] 1000 rfl rfl

/-- C6: for every stored configuration with BPS1+BPS2+BPS3 > 10000, every
`buy` call rejects before emitting any sub-payment, leaving the state
unchanged (the enforcement point chosen by the code is the `buy`-time
`valid_bps` assert, not creation). -/
theorem bps_over_10000_buy_rejects {s : RouterState} {c : CallCtx}
    (h : 10000 < s.bps1 + s.bps2 + s.bps3) :
    routerCallResult s c [buySel] = (s, []) := by
  have key : buy s c = none := by
    cases e : buy s c with
    | none => rfl
    | some ps =>
      exfalso
      obtain ⟨t1, t2, ht1, ht2, hbps, rest⟩ := buy_some_iff.mp e
      omega
  simp [routerCallResult, routerNoOp, key]

/-- C6 witness: a configuration with bps summing to 27000 rejects a fully
well-formed buy group, with no payment emitted and the state unchanged. -/
theorem bps_over_10000_buy_rejects_witness :
    routerCallResult ⟨[1], [2], [3], 9000, 9000, 9000, 500, 7, [9]⟩
      (exampleCtx 1000000) [buySel] =
      (⟨[1], [2], [3], 9000, 9000, 9000, 500, 7, [9]⟩, []) := by
  exact bps_over_10000_buy_rejects (by decide)

/-- Local store with the admin `[7]` and a buyer `[1]` both freshly
opted in at zero points and zero tier. -/
def freshTwo : LocalMap :=
  fun x =>
    if x = [1] then some ⟨0, 0⟩ else if x = [7] then some ⟨0, 0⟩ else none

/-- C7: at the failing input — the admin `[7]` calling `add_points` with
amount 25 and the buyer `[1]` supplied as the only foreign account, both
freshly opted in — the call is approved but credits the sender: the AVM
resolves `Txn.accounts[0]` to the sender (the first foreign account lives
at index 1), so the admin's own points become 25 while the buyer's stay 0,
against the claim and the contract's own docstring, which promise the
supplied foreign account is credited. -/
theorem addPoints_credits_sender_not_foreign :
    addTarget [7] [[1]] = [7] ∧
    addPoints [7] freshTwo [7] [[97], [25]] [[1]] =
      some (lmUpdate freshTwo [7] ⟨25, 0⟩) ∧
    (lmUpdate freshTwo [7] ⟨25, 0⟩) [7] = some ⟨25, 0⟩ ∧
    (lmUpdate freshTwo [7] ⟨25, 0⟩) [1] = some ⟨0, 0⟩ := by
  refine ⟨by decide, ?_, by decide, by decide⟩
  rfl

/-- C8: a `claim_tier` call rejects with the caller's (opted-in) record
unchanged when the threshold argument is missing, decodes to zero, or
exceeds the caller's points; otherwise it sets the caller's tier to
exactly the threshold, leaves the caller's points unchanged, and changes
no other account's state. -/
theorem claimTier_spec {m : LocalMap} {sender : Addr} {args : List Bytes}
    {r : SuperfanLocal} (hsl : m sender = some r) :
    (args.length < 2 → applyCall m (claimTier m sender args) = m) ∧
    (∀ thB th, args[1]? = some thB → btoi thB = some th →
      ((th = 0 → applyCall m (claimTier m sender args) = m) ∧
       (r.pts < th → applyCall m (claimTier m sender args) = m) ∧
       (0 < th → th ≤ r.pts →
         claimTier m sender args = some (lmUpdate m sender ⟨r.pts, th⟩)))) ∧
    (∀ m₂, claimTier m sender args = some m₂ →
      ∀ a, a ≠ sender → m₂ a = m a) := by
  have key : ∀ m₂, claimTier m sender args = some m₂ →
      ∃ thB th, args[1]? = some thB ∧ btoi thB = some th ∧
        2 ≤ args.length ∧ 0 < th ∧ th ≤ r.pts ∧
        m₂ = lmUpdate m sender ⟨r.pts, th⟩ := by
    intro m₂ h
    obtain ⟨thB, th, r', hargs, hth, hlen, hpos, hr', hle, hm⟩ :=
      claimTier_some_iff.mp h
    rw [hsl] at hr'
    injection hr' with er
    subst er
    exact ⟨thB, th, hargs, hth, hlen, hpos, hle, hm⟩
  refine ⟨?_, ?_, ?_⟩
  · intro hlt
    cases e : claimTier m sender args with
    | none => rfl
    | some m₂ =>
      obtain ⟨thB, th, hargs, hth, hlen, rest⟩ := key m₂ e
      exact absurd hlen (by omega)
  · intro thB th hargs hth
    refine ⟨?_, ?_, ?_⟩
    · intro h0
      cases e : claimTier m sender args with
      | none => rfl
      | some m₂ =>
        exfalso
        obtain ⟨thB', th', hargs', hth', hlen, hpos, rest⟩ := key m₂ e
        rw [hargs] at hargs'
        injection hargs' with eB
        subst eB
        rw [hth] at hth'
        injection hth' with eT
        subst eT
        omega
    · intro hgt
      cases e : claimTier m sender args with
      | none => rfl
      | some m₂ =>
        exfalso
        obtain ⟨thB', th', hargs', hth', hlen, hpos, hle, rest⟩ := key m₂ e
        rw [hargs] at hargs'
        injection hargs' with eB
        subst eB
        rw [hth] at hth'
        injection hth' with eT
        subst eT
        omega
    · intro hpos hle
      have hlen : 2 ≤ args.length := by
        cases args with
        | nil => simp at hargs
        | cons x xs =>
          cases xs with
          | nil => simp at hargs
          | cons y ys => simp
      exact claimTier_some_iff.mpr ⟨thB, th, r, hargs, hth, hlen, hpos, hsl,
        hle, rfl⟩
  · intro m₂ h a hne
    obtain ⟨thB, th, hargs, hth, hlen, hpos, hle, hm⟩ := key m₂ h
    subst hm
    unfold lmUpdate
    rw [if_neg hne]

/-- C8 witness: a caller at 125 points claims threshold 100 and lands at
tier exactly 100 with points unchanged at 125 (the spec's scenario D
tail). -/
theorem claimTier_spec_witness :
    claimTier (fun x => if x = [1] then some ⟨125, 0⟩ else none) [1]
      [[99], [100]] =
      some (lmUpdate (fun x => if x = [1] then some ⟨125, 0⟩ else none)
        [1] ⟨125, 100⟩) := by
  exact ((@claimTier_spec (fun x => if x = [1] then some ⟨125, 0⟩ else none)
    [1] [[99], [100]] ⟨125, 0⟩ rfl).2.1 [100] 100 rfl rfl).2.2
    (by decide) (by decide)

/-- C9: every local-state store reachable from the empty store through
approved opt-in, `add_points` and `claim_tier` calls satisfies
TIER ≤ POINTS on every opted-in account, and neither an approved
`add_points` nor an approved `claim_tier` call ever decreases any
account's points. -/
theorem superfan_invariants (admin : Addr) :
    (∀ m, SFReach admin m → ∀ a r, m a = some r → r.tier ≤ r.pts) ∧
    (∀ m sender args accounts m₂,
      addPoints admin m sender args accounts = some m₂ →
      ∀ a r r₂, m a = some r → m₂ a = some r₂ → r.pts ≤ r₂.pts) ∧
    (∀ m sender args m₂, claimTier m sender args = some m₂ →
      ∀ a r r₂, m a = some r → m₂ a = some r₂ → r.pts ≤ r₂.pts) := by
  have monoAdd : ∀ m sender args accounts m₂,
      addPoints admin m sender args accounts = some m₂ →
      ∀ a r r₂, m a = some r → m₂ a = some r₂ → r.pts ≤ r₂.pts := by
    intro m sender args accounts m₂ h a r r₂ hr hr₂
    obtain ⟨amtB, amt, rt, hargs, hb, hadm, hlen, hpos, hrt, hov, hm⟩ :=
      addPoints_some_iff.mp h
    subst hm
    unfold lmUpdate at hr₂
    by_cases ha : a = addTarget sender accounts
    · rw [if_pos ha] at hr₂
      injection hr₂ with e₂
      rw [ha] at hr
      rw [hrt] at hr
      injection hr with e₁
      rw [← e₂, e₁]
      exact Nat.le_add_right _ _
    · rw [if_neg ha] at hr₂
      rw [hr] at hr₂
      injection hr₂ with e₂
      rw [e₂]
  have monoClaim : ∀ m sender args m₂, claimTier m sender args = some m₂ →
      ∀ a r r₂, m a = some r → m₂ a = some r₂ → r.pts ≤ r₂.pts := by
    intro m sender args m₂ h a r r₂ hr hr₂
    obtain ⟨thB, th, rt, hargs, hth, hlen, hpos, hrt, hle, hm⟩ :=
      claimTier_some_iff.mp h
    subst hm
    unfold lmUpdate at hr₂
    by_cases ha : a = sender
    · rw [if_pos ha] at hr₂
      injection hr₂ with e₂
      rw [ha] at hr
      rw [hrt] at hr
      injection hr with e₁
      rw [← e₂, e₁]
    · rw [if_neg ha] at hr₂
      rw [hr] at hr₂
      injection hr₂ with e₂
      rw [e₂]
  refine ⟨?_, monoAdd, monoClaim⟩
  intro m hm
  induction hm with
  | init =>
    intro a r h
    exact Option.noConfusion h
  | optin m sender hm ih =>
    intro a r h
    unfold handleOptin lmUpdate at h
    by_cases ha : a = sender
    · rw [if_pos ha] at h
      injection h with e
      rw [← e]
    · rw [if_neg ha] at h
      exact ih a r h
  | add m m₂ sender args accounts hm hstep ih =>
    intro a r h
    obtain ⟨amtB, amt, rt, hargs, hb, hadm, hlen, hpos, hrt, hov, hm₂⟩ :=
      addPoints_some_iff.mp hstep
    subst hm₂
    unfold lmUpdate at h
    by_cases ha : a = addTarget sender accounts
    · rw [if_pos ha] at h
      injection h with e
      have hbase := ih _ _ hrt
      rw [← e]
      simp only []
      omega
    · rw [if_neg ha] at h
      exact ih a r h
  | claim m m₂ sender args hm hstep ih =>
    intro a r h
    obtain ⟨thB, th, rt, hargs, hth, hlen, hpos, hrt, hle, hm₂⟩ :=
      claimTier_some_iff.mp hstep
    subst hm₂
    unfold lmUpdate at h
    by_cases ha : a = sender
    · rw [if_pos ha] at h
      injection h with e
      rw [← e]
      exact hle
    · rw [if_neg ha] at h
      exact ih a r h

/-- C9 witness: the store reached by a single opt-in of account `[1]`
satisfies the invariant at that account's freshly zeroed record. -/
theorem superfan_invariants_witness :
    (⟨0, 0⟩ : SuperfanLocal).tier ≤ (⟨0, 0⟩ : SuperfanLocal).pts := by
  exact (superfan_invariants [7]).1 (handleOptin (fun _ => none) [1])
    (SFReach.optin _ [1] SFReach.init) [1] ⟨0, 0⟩ rfl

/-- Router configuration identical to the example one except that ROY_BPS
is 10001, exceeding 100% — which creation happily stores. -/
def overRoyState : RouterState :=
  ⟨[1], [2], [3], 7000, 2500, 500, 10001, 7, [9]⟩

/-- C10 counterexample: with ROY_BPS = 10001 and the strictly positive
principal 1, the royalty floors to 1 ≤ principal, the subtraction does
not underflow, and the resale call succeeds (emitting royalty 1 to P1 and
remainder 0 to the seller) — so not every positive-principal resale under
ROY_BPS > 10000 fails at the subtraction. -/
theorem resale_over_roy_succeeds :
    resale overRoyState (exampleCtx 1) = some [⟨[1], 1⟩, ⟨[9], 0⟩] ∧
    10000 < overRoyState.royBps ∧
    0 < (examplePay 1).amount := by decide

/-- C10 amended: creation stores ROY_BPS without any bound check; when
ROY_BPS ≤ 10000 the royalty never exceeds the principal, so the uint64
subtraction in `resale` cannot underflow; and a `resale` call fails at
that subtraction — rejecting the whole group with no sub-payment emitted
— exactly when `floor(principal * ROY_BPS / 10000) > principal` (which
for ROY_BPS > 10000 happens only once the principal is large enough that
the excess accumulates to a full µAlgo, not for every positive
principal). -/
theorem resale_underflow_spec :
    (∀ (a0 a1 a2 a3 a4 a5 a6 a7 a8 : Bytes) (b1 b2 b3 roy asa : Nat),
      btoi a3 = some b1 → btoi a4 = some b2 → btoi a5 = some b3 →
      btoi a6 = some roy → btoi a7 = some asa →
      onCreate [a0, a1, a2, a3, a4, a5, a6, a7, a8] =
        some ⟨a0, a1, a2, b1, b2, b3, roy, asa, a8⟩) ∧
    (∀ (s : RouterState) (p : Nat), s.royBps ≤ 10000 →
      checkedSub p (p * s.royBps / 10000) =
        some (p - p * s.royBps / 10000)) ∧
    (∀ (s : RouterState) (c : CallCtx) (t1 : Txn), c.group[1]? = some t1 →
      t1.amount < t1.amount * s.royBps / 10000 → resale s c = none) ∧
    (∀ (s : RouterState) (c : CallCtx) (ps : List Payment) (t1 : Txn),
      resale s c = some ps → c.group[1]? = some t1 →
      t1.amount * s.royBps / 10000 ≤ t1.amount) := by
  refine ⟨?_, ?_, ?_, ?_⟩
  · intro a0 a1 a2 a3 a4 a5 a6 a7 a8 b1 b2 b3 roy asa h3 h4 h5 h6 h7
    have base : onCreate [a0, a1, a2, a3, a4, a5, a6, a7, a8] = (do
        let x1 ← btoi a3
        let x2 ← btoi a4
        let x3 ← btoi a5
        let x4 ← btoi a6
        let x5 ← btoi a7
        pure ⟨a0, a1, a2, x1, x2, x3, x4, x5, a8⟩) := rfl
    rw [base, h3, h4, h5, h6, h7]
    rfl
  · intro s p hroy
    have h1 : p * s.royBps ≤ p * 10000 := Nat.mul_le_mul_left _ hroy
    have h2 : p * s.royBps / 10000 ≤ p * 10000 / 10000 :=
      Nat.div_le_div_right h1
    exact checkedSub_of_le (by omega)
  · intro s c t1 ht1 hlt
    cases e : resale s c with
    | none => rfl
    | some ps =>
      exfalso
      obtain ⟨tA, tB, htA, htB, hlen, hgi, hfee, hty1, hrecv, hty2, hasa,
        hamt1, harecv, wr, hle, hps⟩ := resale_some_iff.mp e
      rw [ht1] at htA
      injection htA with e1
      subst e1
      omega
  · intro s c ps t1 h ht1
    obtain ⟨tA, tB, htA, htB, hlen, hgi, hfee, hty1, hrecv, hty2, hasa,
      hamt1, harecv, wr, hle, hps⟩ := resale_some_iff.mp h
    rw [ht1] at htA
    injection htA with e1
    subst e1
    exact hle

/-- C10 amended witness: creation stores ROY_BPS = 10001 unchecked; at
ROY_BPS = 500 the subtraction on principal 100 succeeds; at ROY_BPS =
20000 and principal 1 the royalty floors to 2 > 1 and the resale call
rejects. -/
theorem resale_underflow_spec_witness :
    onCreate [[1], [2], [3], [4], [5], [6], [39, 17], [7], [9]] =
      some ⟨[1], [2], [3], 4, 5, 6, 10001, 7, [9]⟩ ∧
    checkedSub 100 (100 * 500 / 10000) = some (100 - 100 * 500 / 10000) ∧
    resale ⟨[1], [2], [3], 7000, 2500, 500, 20000, 7, [9]⟩
      (exampleCtx 1) = none := by
  refine ⟨?_, ?_, ?_⟩
  · exact resale_underflow_spec.1 [1] [2] [3] [4] [5] [6] [39, 17] [7] [9]
      4 5 6 10001 7 rfl rfl rfl rfl rfl
  · exact resale_underflow_spec.2.1 ⟨[1], [2], [3], 0, 0, 0, 500, 7, [9]⟩
      100 (by decide)
  · exact resale_underflow_spec.2.2.1 ⟨[1], [2], [3], 7000, 2500, 500,
      20000, 7, [9]⟩ (exampleCtx 1) (examplePay 1) (by decide) (by decide)
